import Mathlib

/-!
Shallow embedding of the two FastAPI services in this repository:
`src/main.py` (the "items" service) and `src/notes.py` (the "notes"
service).  Each service keeps a global in-memory list of records and a
`next_id` counter; handlers do linear scans and in-place mutation.  We
model the pair (list, counter) as an explicit state threaded through the
operations, and the wall clock (`datetime.now()`) as an explicit `now`
argument to the create operations.  Raising `HTTPException(404, msg)` is
modelled as an `Except.error msg` outcome paired with the unchanged state.

`price` is a Python float that the code only stores and copies (no
arithmetic is ever performed on it), so any carrier with decidable
equality is a faithful model; we use `Rat`.  Timestamps are likewise only
stored, never inspected; we use `Nat`.
-/

/-- Generic faithful rendering of Python's
`next((i for i, x in enumerate(xs) if p(x)), None)`:
the index of the first element satisfying `p`, if any. -/
def findIndex (p : α → Bool) : List α → Option Nat
  | [] => none
  | a :: rest => if p a then some 0 else (findIndex p rest).map (· + 1)

/-- Generic faithful rendering of Python's
`next((x for x in xs if p(x)), None)`: the first element satisfying `p`. -/
def findFirst (p : α → Bool) : List α → Option α
  | [] => none
  | a :: rest => if p a then some a else findFirst p rest

/-- Python's `a.lower() in b` substring test, on lists of characters:
`isPre n h` is `n` being an initial segment of `h`. -/
def isPre [BEq α] : List α → List α → Bool
  | [], _ => true
  | _ :: _, [] => false
  | a :: as, b :: bs => a == b && isPre as bs

/-- `containsSeq n h`: `n` occurs as a contiguous subsequence of `h`
(Python's `n in h` on strings, after `.data`). -/
def containsSeq [BEq α] (needle : List α) : List α → Bool
  | [] => needle.isEmpty
  | a :: rest => isPre needle (a :: rest) || containsSeq needle rest

/-- Python `needle in hay` on strings. -/
def strContains (hay needle : String) : Bool :=
  containsSeq needle.data hay.data

/-- Python's `str.lower()`: lowercase each character.  (Lean's own
`String.toLower` is semantically the same map over the characters but is
not kernel-reducible, so we spell the map out.) -/
def strLower (s : String) : String :=
  ⟨s.data.map Char.toLower⟩

/-! ## Items service (`src/main.py`) -/

/-- A stored item record (the dicts appended to `items_db`). -/
structure Item where
  id : Nat
  name : String
  description : Option String
  price : Rat
  created_at : Nat
deriving DecidableEq, Repr

/-- The `ItemCreate` pydantic model: `name`, optional `description`, `price`. -/
structure ItemCreate where
  name : String
  description : Option String
  price : Rat
deriving DecidableEq, Repr

/-- The `ItemUpdate` pydantic model: every field optional (`None` = absent). -/
structure ItemUpdate where
  name : Option String
  description : Option String
  price : Option Rat
deriving DecidableEq, Repr

/-- The items service's global state: `items_db` and `next_id`. -/
structure ItemsState where
  items_db : List Item
  next_id : Nat
deriving DecidableEq, Repr

/-- Initial state: `items_db = []`, `next_id = 1`. -/
def itemsInit : ItemsState := { items_db := [], next_id := 1 }

/-- `GET /items`: return all items. -/
def get_items (s : ItemsState) : List Item := s.items_db

/-- `GET /items/{item_id}`: linear scan for the first item with the id;
404 "Item not found" if none. -/
def get_item (s : ItemsState) (item_id : Nat) : Except String Item × ItemsState :=
  match findFirst (fun item => item.id == item_id) s.items_db with
  | none => (.error "Item not found", s)
  | some item => (.ok item, s)

/-- `POST /items`: build the new record with `id = next_id` and
`created_at = now`, append it, increment the counter. -/
def create_item (s : ItemsState) (item : ItemCreate) (now : Nat) : Item × ItemsState :=
  let new_item : Item :=
    { id := s.next_id
      name := item.name
      description := item.description
      price := item.price
      created_at := now }
  (new_item, { items_db := s.items_db ++ [new_item], next_id := s.next_id + 1 })

/-- The three `if item.field is not None:` in-place assignments of
`update_item`, as a pure record update. -/
def applyItemUpdate (old : Item) (item : ItemUpdate) : Item :=
  let old := match item.name with
    | some v => { old with name := v }
    | none => old
  let old := match item.description with
    | some v => { old with description := some v }
    | none => old
  match item.price with
  | some v => { old with price := v }
  | none => old

/-- `PUT /items/{item_id}`: find the index of the first item with the id
(404 if none), overwrite the provided fields at that index, return the
updated record.  The inner `none` branch is unreachable (the index
returned by `findIndex` is always in range). -/
def update_item (s : ItemsState) (item_id : Nat) (item : ItemUpdate) :
    Except String Item × ItemsState :=
  match findIndex (fun it => it.id == item_id) s.items_db with
  | none => (.error "Item not found", s)
  | some i =>
    match s.items_db.get? i with
    | none => (.error "Item not found", s)
    | some old =>
      let updated := applyItemUpdate old item
      (.ok updated, { s with items_db := s.items_db.set i updated })

/-- `DELETE /items/{item_id}`: find the index (404 if none), `pop` it,
return the success message built from the deleted item's name. -/
def delete_item (s : ItemsState) (item_id : Nat) : Except String String × ItemsState :=
  match findIndex (fun it => it.id == item_id) s.items_db with
  | none => (.error "Item not found", s)
  | some i =>
    match s.items_db.get? i with
    | none => (.error "Item not found", s)
    | some deleted_item =>
      (.ok ("Item '" ++ deleted_item.name ++ "' deleted successfully"),
        { s with items_db := s.items_db.eraseIdx i })

/-! ## Notes service (`src/notes.py`) -/

/-- A stored note record (the dicts appended to `notes_db`). -/
structure Note where
  id : Nat
  title : String
  content : String
  tags : List String
  created_at : Nat
deriving DecidableEq, Repr

/-- The `NoteCreate` pydantic model; `tags` may be supplied as `null`
(hence `Option`), defaulting is done in the handler via `note.tags or []`. -/
structure NoteCreate where
  title : String
  content : String
  tags : Option (List String)
deriving DecidableEq, Repr

/-- The `NoteUpdate` pydantic model: every field optional. -/
structure NoteUpdate where
  title : Option String
  content : Option String
  tags : Option (List String)
deriving DecidableEq, Repr

/-- The notes service's global state: `notes_db` and `next_id`. -/
structure NotesState where
  notes_db : List Note
  next_id : Nat
deriving DecidableEq, Repr

/-- Initial state: `notes_db = []`, `next_id = 1`. -/
def notesInit : NotesState := { notes_db := [], next_id := 1 }

/-- Python's `note.tags or []`: `None` and `[]` both give `[]`. -/
def tagsOrEmpty : Option (List String) → List String
  | none => []
  | some ts => if ts.isEmpty then [] else ts

/-- `POST /notes`: build the record with `id = next_id`,
`tags = note.tags or []`, `created_at = now`; append; increment. -/
def create_note (s : NotesState) (note : NoteCreate) (now : Nat) : Note × NotesState :=
  let new_note : Note :=
    { id := s.next_id
      title := note.title
      content := note.content
      tags := tagsOrEmpty note.tags
      created_at := now }
  (new_note, { notes_db := s.notes_db ++ [new_note], next_id := s.next_id + 1 })

/-- `GET /notes?search=&tag=`: start from the whole list; `if search:`
(truthy — present and non-empty) keep notes whose lowered title or content
contains the lowered search string; `if tag:` keep notes whose lowered tag
list contains the lowered tag.  `none` models an absent query parameter. -/
def get_notes (s : NotesState) (search tag : Option String) : List Note :=
  let results := s.notes_db
  let results :=
    match search with
    | some q =>
      if q = "" then results
      else results.filter fun n =>
        strContains (strLower n.title) (strLower q) ||
          strContains (strLower n.content) (strLower q)
    | none => results
  let results :=
    match tag with
    | some t =>
      if t = "" then results
      else results.filter fun n =>
        (n.tags.map strLower).contains (strLower t)
    | none => results
  results

/-- `GET /notes/{note_id}`: first note with the id, 404 "Note not found"
otherwise (`if not note:` — a stored note dict is never falsy). -/
def get_note (s : NotesState) (note_id : Nat) : Except String Note × NotesState :=
  match findFirst (fun n => n.id == note_id) s.notes_db with
  | none => (.error "Note not found", s)
  | some note => (.ok note, s)

/-- The three `if note.field is not None:` in-place assignments of
`update_note`. -/
def applyNoteUpdate (old : Note) (note : NoteUpdate) : Note :=
  let old := match note.title with
    | some v => { old with title := v }
    | none => old
  let old := match note.content with
    | some v => { old with content := v }
    | none => old
  match note.tags with
  | some v => { old with tags := v }
  | none => old

/-- The `for n in notes_db:` loop of `update_note`: mutate and return the
first note whose id matches, leaving the rest of the list untouched. -/
def updateNotesList (note_id : Nat) (note : NoteUpdate) :
    List Note → Option (Note × List Note)
  | [] => none
  | n :: rest =>
    if n.id == note_id then
      let updated := applyNoteUpdate n note
      some (updated, updated :: rest)
    else
      (updateNotesList note_id note rest).map (fun r => (r.1, n :: r.2))

/-- `PUT /notes/{note_id}`: first-match in-place update, else 404. -/
def update_note (s : NotesState) (note_id : Nat) (note : NoteUpdate) :
    Except String Note × NotesState :=
  match updateNotesList note_id note s.notes_db with
  | none => (.error "Note not found", s)
  | some (updated, db) => (.ok updated, { s with notes_db := db })

/-- The `for i, n in enumerate(notes_db):` loop of `delete_note`:
`pop` the first note whose id matches. -/
def deleteNotesList (note_id : Nat) : List Note → Option (List Note)
  | [] => none
  | n :: rest =>
    if n.id == note_id then some rest
    else (deleteNotesList note_id rest).map (fun l => n :: l)

/-- `DELETE /notes/{note_id}`: first-match removal, else 404. -/
def delete_note (s : NotesState) (note_id : Nat) : Except String String × NotesState :=
  match deleteNotesList note_id s.notes_db with
  | none => (.error "Note not found", s)
  | some db => (.ok "Note deleted successfully", { s with notes_db := db })

/-! ## Generic lemmas about the list helpers -/

theorem findFirst_eq_none {p : α → Bool} {l : List α} :
    findFirst p l = none ↔ ∀ a ∈ l, p a = false := by
  induction l with
  | nil => simp [findFirst]
  | cons a rest ih =>
    by_cases h : p a = true
    · simp [findFirst, h]
    · simp only [Bool.not_eq_true] at h
      simp [findFirst, h, ih]

theorem findFirst_eq_some {p : α → Bool} {l : List α} {a : α}
    (h : findFirst p l = some a) : a ∈ l ∧ p a = true := by
  induction l with
  | nil => simp [findFirst] at h
  | cons b rest ih =>
    by_cases hb : p b = true
    · simp [findFirst, hb] at h
      subst h; exact ⟨List.mem_cons_self _ _, hb⟩
    · simp only [Bool.not_eq_true] at hb
      simp [findFirst, hb] at h
      obtain ⟨hmem, hp⟩ := ih h
      exact ⟨List.mem_cons_of_mem _ hmem, hp⟩

theorem findIndex_eq_none {p : α → Bool} {l : List α} :
    findIndex p l = none ↔ ∀ a ∈ l, p a = false := by
  induction l with
  | nil => simp [findIndex]
  | cons a rest ih =>
    by_cases h : p a = true
    · simp [findIndex, h]
    · simp only [Bool.not_eq_true] at h
      simp [findIndex, h, ih]

theorem findIndex_decomp {p : α → Bool} {l : List α} {i : Nat}
    (h : findIndex p l = some i) :
    ∃ l₁ a l₂, l = l₁ ++ a :: l₂ ∧ l₁.length = i ∧ p a = true ∧
      ∀ b ∈ l₁, p b = false := by
  induction l generalizing i with
  | nil => simp [findIndex] at h
  | cons a rest ih =>
    by_cases ha : p a = true
    · simp [findIndex, ha] at h
      exact ⟨[], a, rest, rfl, h, ha, by simp⟩
    · simp only [Bool.not_eq_true] at ha
      simp [findIndex, ha] at h
      obtain ⟨j, hj, hji⟩ := h
      obtain ⟨l₁, b, l₂, hl, hlen, hpb, hall⟩ := ih hj
      refine ⟨a :: l₁, b, l₂, by simp [hl], by simp [hlen, hji], hpb, ?_⟩
      intro c hc
      rcases List.mem_cons.mp hc with hc | hc
      · subst hc; exact ha
      · exact hall c hc

theorem getElem?_append_cons_length {l₁ l₂ : List α} {a : α} :
    (l₁ ++ a :: l₂)[l₁.length]? = some a := by
  rw [List.getElem?_append_right (Nat.le_refl _)]
  simp

theorem set_append_cons_length {l₁ l₂ : List α} {a b : α} :
    (l₁ ++ a :: l₂).set l₁.length b = l₁ ++ b :: l₂ := by
  rw [List.set_append_right _ _ (Nat.le_refl _)]
  simp

theorem eraseIdx_append_cons_length {l₁ l₂ : List α} {a : α} :
    (l₁ ++ a :: l₂).eraseIdx l₁.length = l₁ ++ l₂ := by
  induction l₁ with
  | nil => rfl
  | cons x xs ih => simpa [List.eraseIdx] using ih

theorem isPre_iff [DecidableEq α] {n h : List α} :
    isPre n h = true ↔ ∃ post, h = n ++ post := by
  induction n generalizing h with
  | nil => simp [isPre]
  | cons a as ih =>
    cases h with
    | nil => simp [isPre]
    | cons b bs =>
      simp only [isPre, Bool.and_eq_true, beq_iff_eq, ih, List.cons_append,
        List.cons.injEq]
      constructor
      · rintro ⟨rfl, post, rfl⟩; exact ⟨post, rfl, rfl⟩
      · rintro ⟨post, rfl, rfl⟩; exact ⟨rfl, post, rfl⟩

theorem containsSeq_iff [DecidableEq α] {n h : List α} :
    containsSeq n h = true ↔ ∃ pre post, h = pre ++ n ++ post := by
  induction h with
  | nil =>
    simp only [containsSeq, List.isEmpty_iff]
    constructor
    · rintro rfl; exact ⟨[], [], rfl⟩
    · rintro ⟨pre, post, hp⟩
      rcases List.append_eq_nil.mp (List.append_eq_nil.mp hp.symm).1 with ⟨_, h2⟩
      exact h2
  | cons a rest ih =>
    simp only [containsSeq, Bool.or_eq_true, isPre_iff, ih]
    constructor
    · rintro (⟨post, hp⟩ | ⟨pre, post, hp⟩)
      · exact ⟨[], post, by simp [hp]⟩
      · exact ⟨a :: pre, post, by simp [hp]⟩
    · rintro ⟨pre, post, hp⟩
      cases pre with
      | nil => exact Or.inl ⟨post, by simpa using hp⟩
      | cons x xs =>
        simp only [List.cons_append, List.cons.injEq] at hp
        exact Or.inr ⟨xs, post, hp.2⟩

/-! ## Field-level lemmas about the partial-update merges -/

theorem applyItemUpdate_id (old : Item) (u : ItemUpdate) :
    (applyItemUpdate old u).id = old.id := by
  unfold applyItemUpdate
  cases u.name <;> cases u.description <;> cases u.price <;> rfl

theorem applyItemUpdate_created_at (old : Item) (u : ItemUpdate) :
    (applyItemUpdate old u).created_at = old.created_at := by
  unfold applyItemUpdate
  cases u.name <;> cases u.description <;> cases u.price <;> rfl

theorem applyItemUpdate_name (old : Item) (u : ItemUpdate) :
    (applyItemUpdate old u).name = u.name.getD old.name := by
  unfold applyItemUpdate
  cases u.name <;> cases u.description <;> cases u.price <;> rfl

theorem applyItemUpdate_description (old : Item) (u : ItemUpdate) :
    (applyItemUpdate old u).description = u.description.or old.description := by
  unfold applyItemUpdate
  cases u.name <;> cases u.description <;> cases u.price <;> rfl

theorem applyItemUpdate_price (old : Item) (u : ItemUpdate) :
    (applyItemUpdate old u).price = u.price.getD old.price := by
  unfold applyItemUpdate
  cases u.name <;> cases u.description <;> cases u.price <;> rfl

theorem applyItemUpdate_empty (old : Item) :
    applyItemUpdate old { name := none, description := none, price := none } = old := rfl

theorem applyNoteUpdate_id (old : Note) (u : NoteUpdate) :
    (applyNoteUpdate old u).id = old.id := by
  unfold applyNoteUpdate
  cases u.title <;> cases u.content <;> cases u.tags <;> rfl

theorem applyNoteUpdate_created_at (old : Note) (u : NoteUpdate) :
    (applyNoteUpdate old u).created_at = old.created_at := by
  unfold applyNoteUpdate
  cases u.title <;> cases u.content <;> cases u.tags <;> rfl

theorem applyNoteUpdate_title (old : Note) (u : NoteUpdate) :
    (applyNoteUpdate old u).title = u.title.getD old.title := by
  unfold applyNoteUpdate
  cases u.title <;> cases u.content <;> cases u.tags <;> rfl

theorem applyNoteUpdate_content (old : Note) (u : NoteUpdate) :
    (applyNoteUpdate old u).content = u.content.getD old.content := by
  unfold applyNoteUpdate
  cases u.title <;> cases u.content <;> cases u.tags <;> rfl

theorem applyNoteUpdate_tags (old : Note) (u : NoteUpdate) :
    (applyNoteUpdate old u).tags = u.tags.getD old.tags := by
  unfold applyNoteUpdate
  cases u.title <;> cases u.content <;> cases u.tags <;> rfl

theorem applyNoteUpdate_empty (old : Note) :
    applyNoteUpdate old { title := none, content := none, tags := none } = old := rfl

/-! ## Characterizations of the first-match loops of the notes service -/

theorem updateNotesList_eq_none {note_id : Nat} {u : NoteUpdate} {l : List Note} :
    updateNotesList note_id u l = none ↔ ∀ n ∈ l, n.id ≠ note_id := by
  induction l with
  | nil => simp [updateNotesList]
  | cons n rest ih =>
    by_cases h : n.id = note_id
    · simp [updateNotesList, h]
    · have hb : (n.id == note_id) = false := by simp [h]
      simp [updateNotesList, hb, ih, h]

theorem updateNotesList_decomp {note_id : Nat} {u : NoteUpdate} {l : List Note}
    {r : Note} {l' : List Note} (h : updateNotesList note_id u l = some (r, l')) :
    ∃ l₁ n l₂, l = l₁ ++ n :: l₂ ∧ n.id = note_id ∧ r = applyNoteUpdate n u ∧
      l' = l₁ ++ r :: l₂ ∧ ∀ m ∈ l₁, m.id ≠ note_id := by
  induction l generalizing l' with
  | nil => simp [updateNotesList] at h
  | cons n rest ih =>
    by_cases hn : n.id = note_id
    · have hb : (n.id == note_id) = true := by simp [hn]
      simp only [updateNotesList, hb, if_true, Option.some.injEq, Prod.mk.injEq] at h
      exact ⟨[], n, rest, rfl, hn, h.1.symm, by simp [h.1, h.2.symm], by simp⟩
    · have hb : (n.id == note_id) = false := by simp [hn]
      rcases hrec : updateNotesList note_id u rest with _ | ⟨r', rest'⟩ <;>
        simp [updateNotesList, hb, hrec] at h
      obtain ⟨hr, hl'⟩ := h
      obtain ⟨l₁, m, l₂, hsplit, hid, hru, hrest, hall⟩ := ih (hr ▸ hrec)
      refine ⟨n :: l₁, m, l₂, by simp [hsplit], hid, hru, by simp [← hl', hrest], ?_⟩
      intro x hx
      rcases List.mem_cons.mp hx with hx | hx
      · subst hx; exact hn
      · exact hall x hx

theorem deleteNotesList_eq_none {note_id : Nat} {l : List Note} :
    deleteNotesList note_id l = none ↔ ∀ n ∈ l, n.id ≠ note_id := by
  induction l with
  | nil => simp [deleteNotesList]
  | cons n rest ih =>
    by_cases h : n.id = note_id
    · simp [deleteNotesList, h]
    · have hb : (n.id == note_id) = false := by simp [h]
      simp [deleteNotesList, hb, ih, h]

theorem deleteNotesList_decomp {note_id : Nat} {l l' : List Note}
    (h : deleteNotesList note_id l = some l') :
    ∃ l₁ n l₂, l = l₁ ++ n :: l₂ ∧ n.id = note_id ∧ l' = l₁ ++ l₂ ∧
      ∀ m ∈ l₁, m.id ≠ note_id := by
  induction l generalizing l' with
  | nil => simp [deleteNotesList] at h
  | cons n rest ih =>
    by_cases hn : n.id = note_id
    · have hb : (n.id == note_id) = true := by simp [hn]
      simp only [deleteNotesList, hb, if_true, Option.some.injEq] at h
      exact ⟨[], n, rest, rfl, hn, h.symm, by simp⟩
    · have hb : (n.id == note_id) = false := by simp [hn]
      rcases hrec : deleteNotesList note_id rest with _ | rest' <;>
        simp [deleteNotesList, hb, hrec] at h
      obtain ⟨l₁, m, l₂, hsplit, hid, hrest, hall⟩ := ih hrec
      refine ⟨n :: l₁, m, l₂, by simp [hsplit], hid, by simp [← h, hrest], ?_⟩
      intro x hx
      rcases List.mem_cons.mp hx with hx | hx
      · subst hx; exact hn
      · exact hall x hx

/-! ## State-level characterizations of the items handlers -/

theorem update_item_not_found {s : ItemsState} {item_id : Nat} {u : ItemUpdate}
    (h : ∀ x ∈ s.items_db, x.id ≠ item_id) :
    update_item s item_id u = (.error "Item not found", s) := by
  have hf : findIndex (fun it => it.id == item_id) s.items_db = none :=
    findIndex_eq_none.mpr (fun a ha => by simpa using h a ha)
  unfold update_item
  rw [hf]

theorem delete_item_not_found {s : ItemsState} {item_id : Nat}
    (h : ∀ x ∈ s.items_db, x.id ≠ item_id) :
    delete_item s item_id = (.error "Item not found", s) := by
  have hf : findIndex (fun it => it.id == item_id) s.items_db = none :=
    findIndex_eq_none.mpr (fun a ha => by simpa using h a ha)
  unfold delete_item
  rw [hf]

theorem get_item_not_found {s : ItemsState} {item_id : Nat}
    (h : ∀ x ∈ s.items_db, x.id ≠ item_id) :
    get_item s item_id = (.error "Item not found", s) := by
  have hf : findFirst (fun it => it.id == item_id) s.items_db = none :=
    findFirst_eq_none.mpr (fun a ha => by simpa using h a ha)
  unfold get_item
  rw [hf]

theorem update_item_decomp {s : ItemsState} {item_id : Nat} {u : ItemUpdate}
    {r : Item} {s' : ItemsState} (h : update_item s item_id u = (.ok r, s')) :
    ∃ l₁ old l₂, s.items_db = l₁ ++ old :: l₂ ∧ old.id = item_id ∧
      r = applyItemUpdate old u ∧
      s' = { items_db := l₁ ++ r :: l₂, next_id := s.next_id } ∧
      ∀ b ∈ l₁, b.id ≠ item_id := by
  rcases hf : findIndex (fun it => it.id == item_id) s.items_db with _ | i
  · simp only [update_item, hf] at h
    simp at h
  · obtain ⟨l₁, old, l₂, hsplit, hlen, hp, hall⟩ := findIndex_decomp hf
    have hg : s.items_db.get? i = some old := by
      rw [hsplit, ← hlen, List.get?_eq_getElem?]
      exact getElem?_append_cons_length
    simp only [update_item, hf, hg, Prod.mk.injEq, Except.ok.injEq] at h
    obtain ⟨hr, hs'⟩ := h
    refine ⟨l₁, old, l₂, hsplit, by simpa using hp, hr.symm, ?_, ?_⟩
    · rw [← hs', hsplit, ← hlen, set_append_cons_length, hr]
    · intro b hb; simpa using hall b hb

theorem delete_item_decomp {s : ItemsState} {item_id : Nat}
    {msg : String} {s' : ItemsState} (h : delete_item s item_id = (.ok msg, s')) :
    ∃ l₁ old l₂, s.items_db = l₁ ++ old :: l₂ ∧ old.id = item_id ∧
      s' = { items_db := l₁ ++ l₂, next_id := s.next_id } ∧
      ∀ b ∈ l₁, b.id ≠ item_id := by
  rcases hf : findIndex (fun it => it.id == item_id) s.items_db with _ | i
  · simp only [delete_item, hf] at h
    simp at h
  · obtain ⟨l₁, old, l₂, hsplit, hlen, hp, hall⟩ := findIndex_decomp hf
    have hg : s.items_db.get? i = some old := by
      rw [hsplit, ← hlen, List.get?_eq_getElem?]
      exact getElem?_append_cons_length
    simp only [delete_item, hf, hg, Prod.mk.injEq, Except.ok.injEq] at h
    refine ⟨l₁, old, l₂, hsplit, by simpa using hp, ?_, ?_⟩
    · rw [← h.2, hsplit, ← hlen, eraseIdx_append_cons_length]
    · intro b hb; simpa using hall b hb

theorem update_item_found {s : ItemsState} {item_id : Nat} (u : ItemUpdate)
    (h : ∃ x ∈ s.items_db, x.id = item_id) :
    ∃ r s', update_item s item_id u = (.ok r, s') := by
  rcases hf : findIndex (fun it => it.id == item_id) s.items_db with _ | i
  · obtain ⟨x, hx, hid⟩ := h
    have := findIndex_eq_none.mp hf x hx
    simp [hid] at this
  · obtain ⟨l₁, old, l₂, hsplit, hlen, hp, hall⟩ := findIndex_decomp hf
    have hg : s.items_db.get? i = some old := by
      rw [hsplit, ← hlen, List.get?_eq_getElem?]
      exact getElem?_append_cons_length
    have hg2 : s.items_db[i]? = some old := by rw [← List.get?_eq_getElem?]; exact hg
    refine ⟨applyItemUpdate old u,
      { items_db := s.items_db.set i (applyItemUpdate old u), next_id := s.next_id }, ?_⟩
    simp [update_item, hf, hg2]

theorem delete_item_found {s : ItemsState} {item_id : Nat}
    (h : ∃ x ∈ s.items_db, x.id = item_id) :
    ∃ msg s', delete_item s item_id = (.ok msg, s') := by
  rcases hf : findIndex (fun it => it.id == item_id) s.items_db with _ | i
  · obtain ⟨x, hx, hid⟩ := h
    have := findIndex_eq_none.mp hf x hx
    simp [hid] at this
  · obtain ⟨l₁, old, l₂, hsplit, hlen, hp, hall⟩ := findIndex_decomp hf
    have hg : s.items_db.get? i = some old := by
      rw [hsplit, ← hlen, List.get?_eq_getElem?]
      exact getElem?_append_cons_length
    have hg2 : s.items_db[i]? = some old := by rw [← List.get?_eq_getElem?]; exact hg
    refine ⟨"Item '" ++ old.name ++ "' deleted successfully",
      { items_db := s.items_db.eraseIdx i, next_id := s.next_id }, ?_⟩
    simp [delete_item, hf, hg2]

/-! ## State-level characterizations of the notes handlers -/

theorem update_note_not_found {s : NotesState} {note_id : Nat} {u : NoteUpdate}
    (h : ∀ x ∈ s.notes_db, x.id ≠ note_id) :
    update_note s note_id u = (.error "Note not found", s) := by
  unfold update_note
  rw [updateNotesList_eq_none.mpr h]

theorem delete_note_not_found {s : NotesState} {note_id : Nat}
    (h : ∀ x ∈ s.notes_db, x.id ≠ note_id) :
    delete_note s note_id = (.error "Note not found", s) := by
  unfold delete_note
  rw [deleteNotesList_eq_none.mpr h]

theorem get_note_not_found {s : NotesState} {note_id : Nat}
    (h : ∀ x ∈ s.notes_db, x.id ≠ note_id) :
    get_note s note_id = (.error "Note not found", s) := by
  have hf : findFirst (fun n => n.id == note_id) s.notes_db = none :=
    findFirst_eq_none.mpr (fun a ha => by simpa using h a ha)
  unfold get_note
  rw [hf]

theorem update_note_decomp {s : NotesState} {note_id : Nat} {u : NoteUpdate}
    {r : Note} {s' : NotesState} (h : update_note s note_id u = (.ok r, s')) :
    ∃ l₁ old l₂, s.notes_db = l₁ ++ old :: l₂ ∧ old.id = note_id ∧
      r = applyNoteUpdate old u ∧
      s' = { notes_db := l₁ ++ r :: l₂, next_id := s.next_id } ∧
      ∀ b ∈ l₁, b.id ≠ note_id := by
  rcases hu : updateNotesList note_id u s.notes_db with _ | ⟨r', db⟩
  · simp only [update_note, hu] at h
    simp at h
  · simp only [update_note, hu, Prod.mk.injEq, Except.ok.injEq] at h
    obtain ⟨l₁, old, l₂, hsplit, hid, hru, hdb, hall⟩ := updateNotesList_decomp hu
    exact ⟨l₁, old, l₂, hsplit, hid, h.1 ▸ hru, by
      rw [← h.2, hdb, h.1], hall⟩

theorem delete_note_decomp {s : NotesState} {note_id : Nat}
    {msg : String} {s' : NotesState} (h : delete_note s note_id = (.ok msg, s')) :
    ∃ l₁ old l₂, s.notes_db = l₁ ++ old :: l₂ ∧ old.id = note_id ∧
      s' = { notes_db := l₁ ++ l₂, next_id := s.next_id } ∧
      ∀ b ∈ l₁, b.id ≠ note_id := by
  rcases hd : deleteNotesList note_id s.notes_db with _ | db
  · simp only [delete_note, hd] at h
    simp at h
  · simp only [delete_note, hd, Prod.mk.injEq, Except.ok.injEq] at h
    obtain ⟨l₁, old, l₂, hsplit, hid, hdb, hall⟩ := deleteNotesList_decomp hd
    exact ⟨l₁, old, l₂, hsplit, hid, by rw [← h.2, hdb], hall⟩

theorem update_note_found {s : NotesState} {note_id : Nat} (u : NoteUpdate)
    (h : ∃ x ∈ s.notes_db, x.id = note_id) :
    ∃ r s', update_note s note_id u = (.ok r, s') := by
  rcases hu : updateNotesList note_id u s.notes_db with _ | ⟨r', db⟩
  · obtain ⟨x, hx, hid⟩ := h
    exact absurd hid (updateNotesList_eq_none.mp hu x hx)
  · refine ⟨r', { notes_db := db, next_id := s.next_id }, ?_⟩
    simp [update_note, hu]

theorem delete_note_found {s : NotesState} {note_id : Nat}
    (h : ∃ x ∈ s.notes_db, x.id = note_id) :
    ∃ msg s', delete_note s note_id = (.ok msg, s') := by
  rcases hd : deleteNotesList note_id s.notes_db with _ | db
  · obtain ⟨x, hx, hid⟩ := h
    exact absurd hid (deleteNotesList_eq_none.mp hd x hx)
  · refine ⟨"Note deleted successfully", { notes_db := db, next_id := s.next_id }, ?_⟩
    simp [delete_note, hd]

/-! ## Sequences of API calls

To state global invariants ("ids are `1..N` regardless of deletes", "an id
is never reused") we close the items and notes services under arbitrary
sequences of their mutating operations. -/

/-- One mutating call to the items service (the `now` of a create is the
wall-clock value observed by that call). -/
inductive ItemOp where
  | createOp (p : ItemCreate) (now : Nat)
  | updateOp (item_id : Nat) (u : ItemUpdate)
  | deleteOp (item_id : Nat)

/-- State after one items call (error outcomes leave the state unchanged). -/
def runItemOp (s : ItemsState) : ItemOp → ItemsState
  | .createOp p now => (create_item s p now).2
  | .updateOp item_id u => (update_item s item_id u).2
  | .deleteOp item_id => (delete_item s item_id).2

/-- State after a sequence of items calls. -/
def runItemOps (s : ItemsState) : List ItemOp → ItemsState :=
  List.foldl runItemOp s

/-- The ids handed out by the create calls of a sequence, in call order. -/
def itemCreatedIds (s : ItemsState) : List ItemOp → List Nat
  | [] => []
  | op :: rest =>
    match op with
    | .createOp p now => (create_item s p now).1.id :: itemCreatedIds (runItemOp s op) rest
    | _ => itemCreatedIds (runItemOp s op) rest

/-- Number of create calls in a sequence of items calls. -/
def countItemCreates : List ItemOp → Nat
  | [] => 0
  | .createOp _ _ :: rest => countItemCreates rest + 1
  | _ :: rest => countItemCreates rest

/-- One mutating call to the notes service. -/
inductive NoteOp where
  | createOp (p : NoteCreate) (now : Nat)
  | updateOp (note_id : Nat) (u : NoteUpdate)
  | deleteOp (note_id : Nat)

/-- State after one notes call (error outcomes leave the state unchanged). -/
def runNoteOp (s : NotesState) : NoteOp → NotesState
  | .createOp p now => (create_note s p now).2
  | .updateOp note_id u => (update_note s note_id u).2
  | .deleteOp note_id => (delete_note s note_id).2

/-- State after a sequence of notes calls. -/
def runNoteOps (s : NotesState) : List NoteOp → NotesState :=
  List.foldl runNoteOp s

/-- The ids handed out by the create calls of a sequence, in call order. -/
def noteCreatedIds (s : NotesState) : List NoteOp → List Nat
  | [] => []
  | op :: rest =>
    match op with
    | .createOp p now => (create_note s p now).1.id :: noteCreatedIds (runNoteOp s op) rest
    | _ => noteCreatedIds (runNoteOp s op) rest

/-- Number of create calls in a sequence of notes calls. -/
def countNoteCreates : List NoteOp → Nat
  | [] => 0
  | .createOp _ _ :: rest => countNoteCreates rest + 1
  | _ :: rest => countNoteCreates rest

/-! ## The counter never decreases; only creates touch it -/

theorem update_item_next_id (s : ItemsState) (item_id : Nat) (u : ItemUpdate) :
    (update_item s item_id u).2.next_id = s.next_id := by
  rcases hf : findIndex (fun it => it.id == item_id) s.items_db with _ | i
  · simp [update_item, hf]
  · rcases hg : s.items_db[i]? with _ | old <;> simp [update_item, hf, hg]

theorem delete_item_next_id (s : ItemsState) (item_id : Nat) :
    (delete_item s item_id).2.next_id = s.next_id := by
  rcases hf : findIndex (fun it => it.id == item_id) s.items_db with _ | i
  · simp [delete_item, hf]
  · rcases hg : s.items_db[i]? with _ | old <;> simp [delete_item, hf, hg]

theorem update_note_next_id (s : NotesState) (note_id : Nat) (u : NoteUpdate) :
    (update_note s note_id u).2.next_id = s.next_id := by
  rcases hu : updateNotesList note_id u s.notes_db with _ | ⟨r', db⟩ <;>
    simp [update_note, hu]

theorem delete_note_next_id (s : NotesState) (note_id : Nat) :
    (delete_note s note_id).2.next_id = s.next_id := by
  rcases hd : deleteNotesList note_id s.notes_db with _ | db <;>
    simp [delete_note, hd]

/-- The ids created from any starting state are exactly the consecutive
block starting at that state's counter. -/
theorem itemCreatedIds_eq_range (ops : List ItemOp) :
    ∀ s : ItemsState, itemCreatedIds s ops = List.range' s.next_id (countItemCreates ops) := by
  induction ops with
  | nil => intro s; rfl
  | cons op rest ih =>
    intro s
    cases op with
    | createOp p now =>
      simp only [itemCreatedIds, countItemCreates, create_item, runItemOp, ih,
        List.range'_succ]
    | updateOp item_id u =>
      simp only [itemCreatedIds, countItemCreates, runItemOp, ih,
        update_item_next_id]
    | deleteOp item_id =>
      simp only [itemCreatedIds, countItemCreates, runItemOp, ih,
        delete_item_next_id]

/-- The ids created from any starting state are exactly the consecutive
block starting at that state's counter. -/
theorem noteCreatedIds_eq_range (ops : List NoteOp) :
    ∀ s : NotesState, noteCreatedIds s ops = List.range' s.next_id (countNoteCreates ops) := by
  induction ops with
  | nil => intro s; rfl
  | cons op rest ih =>
    intro s
    cases op with
    | createOp p now =>
      simp only [noteCreatedIds, countNoteCreates, create_note, runNoteOp, ih,
        List.range'_succ]
    | updateOp note_id u =>
      simp only [noteCreatedIds, countNoteCreates, runNoteOp, ih,
        update_note_next_id]
    | deleteOp note_id =>
      simp only [noteCreatedIds, countNoteCreates, runNoteOp, ih,
        delete_note_next_id]

/-! ## The reachable-state invariant on ids

Every state reachable from the initial state has strictly increasing ids
(hence pairwise distinct) all below the counter.  The claim theorems about
deletion take this invariant as a hypothesis; the lemmas here show it holds
in every reachable state. -/

/-- Ids strictly increase along `items_db` and are all below `next_id`. -/
def ItemsInv (s : ItemsState) : Prop :=
  List.Pairwise (· < ·) (s.items_db.map Item.id) ∧ ∀ r ∈ s.items_db, r.id < s.next_id

/-- Ids strictly increase along `notes_db` and are all below `next_id`. -/
def NotesInv (s : NotesState) : Prop :=
  List.Pairwise (· < ·) (s.notes_db.map Note.id) ∧ ∀ r ∈ s.notes_db, r.id < s.next_id

theorem update_item_error_state {s : ItemsState} {item_id : Nat} {u : ItemUpdate}
    {e : String} {s' : ItemsState} (h : update_item s item_id u = (.error e, s')) :
    s' = s := by
  rcases hf : findIndex (fun it => it.id == item_id) s.items_db with _ | i
  · simp only [update_item, hf, Prod.mk.injEq] at h
    exact h.2.symm
  · rcases hg : s.items_db[i]? with _ | old <;>
      simp only [update_item, hf, List.get?_eq_getElem?, hg, Prod.mk.injEq] at h
    · exact h.2.symm
    · exact absurd h.1 (by simp)

theorem delete_item_error_state {s : ItemsState} {item_id : Nat}
    {e : String} {s' : ItemsState} (h : delete_item s item_id = (.error e, s')) :
    s' = s := by
  rcases hf : findIndex (fun it => it.id == item_id) s.items_db with _ | i
  · simp only [delete_item, hf, Prod.mk.injEq] at h
    exact h.2.symm
  · rcases hg : s.items_db[i]? with _ | old <;>
      simp only [delete_item, hf, List.get?_eq_getElem?, hg, Prod.mk.injEq] at h
    · exact h.2.symm
    · exact absurd h.1 (by simp)

theorem update_note_error_state {s : NotesState} {note_id : Nat} {u : NoteUpdate}
    {e : String} {s' : NotesState} (h : update_note s note_id u = (.error e, s')) :
    s' = s := by
  rcases hu : updateNotesList note_id u s.notes_db with _ | ⟨r', db⟩ <;>
    simp only [update_note, hu, Prod.mk.injEq] at h
  · exact h.2.symm
  · exact absurd h.1 (by simp)

theorem delete_note_error_state {s : NotesState} {note_id : Nat}
    {e : String} {s' : NotesState} (h : delete_note s note_id = (.error e, s')) :
    s' = s := by
  rcases hd : deleteNotesList note_id s.notes_db with _ | db <;>
    simp only [delete_note, hd, Prod.mk.injEq] at h
  · exact h.2.symm
  · exact absurd h.1 (by simp)

theorem itemsInv_init : ItemsInv itemsInit := by
  constructor <;> simp [itemsInit]

theorem notesInv_init : NotesInv notesInit := by
  constructor <;> simp [notesInit]

theorem itemsInv_create {s : ItemsState} (h : ItemsInv s) (p : ItemCreate) (now : Nat) :
    ItemsInv (create_item s p now).2 := by
  obtain ⟨hpw, hlt⟩ := h
  constructor
  · simp only [create_item, List.map_append, List.map_cons, List.map_nil]
    rw [List.pairwise_append]
    refine ⟨hpw, by simp, ?_⟩
    intro a ha b hb
    simp only [List.mem_singleton] at hb
    subst hb
    obtain ⟨r, hr, hra⟩ := List.mem_map.mp ha
    exact hra ▸ hlt r hr
  · intro r hr
    simp only [create_item, List.mem_append, List.mem_singleton] at hr
    rcases hr with hr | hr
    · exact Nat.lt_succ_of_lt (hlt r hr)
    · subst hr; exact Nat.lt_succ_self _

theorem notesInv_create {s : NotesState} (h : NotesInv s) (p : NoteCreate) (now : Nat) :
    NotesInv (create_note s p now).2 := by
  obtain ⟨hpw, hlt⟩ := h
  constructor
  · simp only [create_note, List.map_append, List.map_cons, List.map_nil]
    rw [List.pairwise_append]
    refine ⟨hpw, by simp, ?_⟩
    intro a ha b hb
    simp only [List.mem_singleton] at hb
    subst hb
    obtain ⟨r, hr, hra⟩ := List.mem_map.mp ha
    exact hra ▸ hlt r hr
  · intro r hr
    simp only [create_note, List.mem_append, List.mem_singleton] at hr
    rcases hr with hr | hr
    · exact Nat.lt_succ_of_lt (hlt r hr)
    · subst hr; exact Nat.lt_succ_self _

theorem itemsInv_update {s : ItemsState} (h : ItemsInv s) (item_id : Nat) (u : ItemUpdate) :
    ItemsInv (update_item s item_id u).2 := by
  rcases hres : update_item s item_id u with ⟨res, s'⟩
  rcases res with e | r
  · rwa [update_item_error_state hres]
  · obtain ⟨l₁, old, l₂, hsplit, hid, hr, hs', _⟩ := update_item_decomp hres
    obtain ⟨hpw, hlt⟩ := h
    have hmap : (l₁ ++ r :: l₂).map Item.id = s.items_db.map Item.id := by
      rw [hsplit]
      simp [hr, applyItemUpdate_id]
    subst hs'
    constructor
    · simpa [hmap] using hpw
    · intro x hx
      simp only []
      rcases List.mem_append.mp hx with hx | hx
      · exact hlt x (hsplit ▸ List.mem_append.mpr (Or.inl hx))
      · rcases List.mem_cons.mp hx with hx | hx
        · subst hx
          have : old ∈ s.items_db := hsplit ▸ List.mem_append.mpr (Or.inr (List.mem_cons_self _ _))
          simpa [hr, applyItemUpdate_id] using hlt old this
        · exact hlt x (hsplit ▸ List.mem_append.mpr (Or.inr (List.mem_cons_of_mem _ hx)))

theorem itemsInv_delete {s : ItemsState} (h : ItemsInv s) (item_id : Nat) :
    ItemsInv (delete_item s item_id).2 := by
  rcases hres : delete_item s item_id with ⟨res, s'⟩
  rcases res with e | msg
  · rwa [delete_item_error_state hres]
  · obtain ⟨l₁, old, l₂, hsplit, hid, hs', _⟩ := delete_item_decomp hres
    obtain ⟨hpw, hlt⟩ := h
    subst hs'
    have hsub : (l₁ ++ l₂).Sublist s.items_db := by
      rw [hsplit]
      exact List.append_sublist_append_left l₁ |>.mpr (List.sublist_cons_self _ _)
    constructor
    · exact List.Pairwise.sublist (List.Sublist.map Item.id hsub) hpw
    · intro x hx
      exact hlt x (hsub.subset hx)

theorem notesInv_update {s : NotesState} (h : NotesInv s) (note_id : Nat) (u : NoteUpdate) :
    NotesInv (update_note s note_id u).2 := by
  rcases hres : update_note s note_id u with ⟨res, s'⟩
  rcases res with e | r
  · rwa [update_note_error_state hres]
  · obtain ⟨l₁, old, l₂, hsplit, hid, hr, hs', _⟩ := update_note_decomp hres
    obtain ⟨hpw, hlt⟩ := h
    have hmap : (l₁ ++ r :: l₂).map Note.id = s.notes_db.map Note.id := by
      rw [hsplit]
      simp [hr, applyNoteUpdate_id]
    subst hs'
    constructor
    · simpa [hmap] using hpw
    · intro x hx
      simp only []
      rcases List.mem_append.mp hx with hx | hx
      · exact hlt x (hsplit ▸ List.mem_append.mpr (Or.inl hx))
      · rcases List.mem_cons.mp hx with hx | hx
        · subst hx
          have : old ∈ s.notes_db := hsplit ▸ List.mem_append.mpr (Or.inr (List.mem_cons_self _ _))
          simpa [hr, applyNoteUpdate_id] using hlt old this
        · exact hlt x (hsplit ▸ List.mem_append.mpr (Or.inr (List.mem_cons_of_mem _ hx)))

theorem notesInv_delete {s : NotesState} (h : NotesInv s) (note_id : Nat) :
    NotesInv (delete_note s note_id).2 := by
  rcases hres : delete_note s note_id with ⟨res, s'⟩
  rcases res with e | msg
  · rwa [delete_note_error_state hres]
  · obtain ⟨l₁, old, l₂, hsplit, hid, hs', _⟩ := delete_note_decomp hres
    obtain ⟨hpw, hlt⟩ := h
    subst hs'
    have hsub : (l₁ ++ l₂).Sublist s.notes_db := by
      rw [hsplit]
      exact List.append_sublist_append_left l₁ |>.mpr (List.sublist_cons_self _ _)
    constructor
    · exact List.Pairwise.sublist (List.Sublist.map Note.id hsub) hpw
    · intro x hx
      exact hlt x (hsub.subset hx)

/-- The invariant holds after any single items call. -/
theorem itemsInv_run {s : ItemsState} (h : ItemsInv s) (op : ItemOp) :
    ItemsInv (runItemOp s op) := by
  cases op with
  | createOp p now => exact itemsInv_create h p now
  | updateOp item_id u => exact itemsInv_update h item_id u
  | deleteOp item_id => exact itemsInv_delete h item_id

/-- The invariant holds in every state reachable from the initial state. -/
theorem itemsInv_reachable (ops : List ItemOp) : ItemsInv (runItemOps itemsInit ops) := by
  suffices h : ∀ s, ItemsInv s → ItemsInv (runItemOps s ops) from h _ itemsInv_init
  induction ops with
  | nil => intro s hs; exact hs
  | cons op rest ih => intro s hs; exact ih _ (itemsInv_run hs op)

/-- The invariant holds after any single notes call. -/
theorem notesInv_run {s : NotesState} (h : NotesInv s) (op : NoteOp) :
    NotesInv (runNoteOp s op) := by
  cases op with
  | createOp p now => exact notesInv_create h p now
  | updateOp note_id u => exact notesInv_update h note_id u
  | deleteOp note_id => exact notesInv_delete h note_id

/-- The invariant holds in every state reachable from the initial state. -/
theorem notesInv_reachable (ops : List NoteOp) : NotesInv (runNoteOps notesInit ops) := by
  suffices h : ∀ s, NotesInv s → NotesInv (runNoteOps s ops) from h _ notesInv_init
  induction ops with
  | nil => intro s hs; exact hs
  | cons op rest ih => intro s hs; exact ih _ (notesInv_run hs op)

/-! ## Filter shape of `get_notes` -/

theorem get_notes_search_filter (s : NotesState) {q : String} (hq : q ≠ "") :
    get_notes s (some q) none =
      s.notes_db.filter fun n =>
        strContains (strLower n.title) (strLower q) ||
          strContains (strLower n.content) (strLower q) := by
  simp [get_notes, hq]

theorem get_notes_tag_filter (s : NotesState) {t : String} (ht : t ≠ "") :
    get_notes s none (some t) =
      s.notes_db.filter fun n => (n.tags.map strLower).contains (strLower t) := by
  simp [get_notes, ht]

theorem get_notes_both_filters (s : NotesState) {q t : String} (hq : q ≠ "") (ht : t ≠ "") :
    get_notes s (some q) (some t) =
      (s.notes_db.filter fun n =>
        strContains (strLower n.title) (strLower q) ||
          strContains (strLower n.content) (strLower q)).filter
        fun n => (n.tags.map strLower).contains (strLower t) := by
  simp [get_notes, hq, ht]

theorem strContains_iff {hay needle : String} :
    strContains hay needle = true ↔ ∃ pre post, hay.data = pre ++ needle.data ++ post := by
  unfold strContains
  exact containsSeq_iff

theorem contains_map_toLower_iff {l : List String} {t : String} :
    (l.map strLower).contains (strLower t) = true ↔ ∃ x ∈ l, strLower x = strLower t := by
  show (l.map strLower).elem (strLower t) = true ↔ _
  rw [List.elem_iff, List.mem_map]

/-! ## Claim theorems -/

/-- C1: for every sequence of create operations on a store (items or
notes), interleaved arbitrarily with update and delete operations, the ids
assigned by the creates are exactly `1, 2, ..., N` in creation order: the
counter starts at 1, each create hands out the counter and increments it,
and no other operation touches the counter, so ids are strictly increasing
and never reused regardless of deletions. -/
theorem spec_C1 (ops : List ItemOp) (nops : List NoteOp) :
    itemCreatedIds itemsInit ops = List.range' 1 (countItemCreates ops) ∧
    noteCreatedIds notesInit nops = List.range' 1 (countNoteCreates nops) :=
  ⟨itemCreatedIds_eq_range ops itemsInit, noteCreatedIds_eq_range nops notesInit⟩

/-- C10: passing `search=""` (or `tag=""`) to the notes list operation is
the same as not passing the parameter at all — Python's `if search:` and
`if tag:` treat the empty string as falsy, so no filtering is applied. -/
theorem spec_C10 (s : NotesState) (search tag : Option String) :
    get_notes s (some "") tag = get_notes s none tag ∧
    get_notes s search (some "") = get_notes s search none := by
  constructor <;> simp [get_notes]

/-- C4: with a non-empty `tag` query, `get_notes` keeps exactly the notes
one of whose tags, lowercased, equals the lowercased query — whole-tag
equality, not substring containment.  Concretely, a note tagged
`["homework"]` is excluded by `tag="work"` and a note tagged
`["work", "urgent"]` is included by `tag="Work"`. -/
theorem spec_C4 (s : NotesState) (t : String) (ht : t ≠ "") :
    (∀ n, n ∈ get_notes s none (some t) ↔
      n ∈ s.notes_db ∧ ∃ x ∈ n.tags, strLower x = strLower t) ∧
    get_notes
        { notes_db :=
            [{ id := 1, title := "hw", content := "c", tags := ["homework"], created_at := 0 },
             { id := 2, title := "w", content := "c", tags := ["work", "urgent"], created_at := 0 }],
          next_id := 3 } none (some "work") =
      [{ id := 2, title := "w", content := "c", tags := ["work", "urgent"], created_at := 0 }] ∧
    get_notes
        { notes_db :=
            [{ id := 1, title := "hw", content := "c", tags := ["homework"], created_at := 0 },
             { id := 2, title := "w", content := "c", tags := ["work", "urgent"], created_at := 0 }],
          next_id := 3 } none (some "Work") =
      [{ id := 2, title := "w", content := "c", tags := ["work", "urgent"], created_at := 0 }] := by
  refine ⟨?_, by decide, by decide⟩
  intro n
  rw [get_notes_tag_filter s ht, List.mem_filter, contains_map_toLower_iff]

/-- C4 witness: the characterization applied to the two-note store, the
tag `"Work"`, and the note tagged `["work", "urgent"]`. -/
theorem spec_C4_witness :
    { id := 2, title := "w", content := "c", tags := ["work", "urgent"], created_at := 0 } ∈
        get_notes
          { notes_db :=
              [{ id := 1, title := "hw", content := "c", tags := ["homework"], created_at := 0 },
               { id := 2, title := "w", content := "c", tags := ["work", "urgent"],
                 created_at := 0 }],
            next_id := 3 } none (some "Work") ↔
      ({ id := 2, title := "w", content := "c", tags := ["work", "urgent"],
         created_at := 0 } : Note) ∈
          [{ id := 1, title := "hw", content := "c", tags := ["homework"], created_at := 0 },
           { id := 2, title := "w", content := "c", tags := ["work", "urgent"], created_at := 0 }] ∧
        ∃ x ∈ ({ id := 2, title := "w", content := "c", tags := ["work", "urgent"],
                 created_at := 0 } : Note).tags, strLower x = strLower "Work" :=
  (spec_C4
    { notes_db :=
        [{ id := 1, title := "hw", content := "c", tags := ["homework"], created_at := 0 },
         { id := 2, title := "w", content := "c", tags := ["work", "urgent"], created_at := 0 }],
      next_id := 3 } "Work" (by decide)).1
    { id := 2, title := "w", content := "c", tags := ["work", "urgent"], created_at := 0 }

/-- C5: with a non-empty `search` query, the notes list operation returns
exactly those notes, in original store order (the result is a sublist of
the store), whose lowercased title or lowercased content contains the
lowercased search string as a contiguous substring (untokenized,
case-insensitive). -/
theorem spec_C5 (s : NotesState) (q : String) (hq : q ≠ "") :
    (get_notes s (some q) none).Sublist s.notes_db ∧
    ∀ n, n ∈ get_notes s (some q) none ↔
      n ∈ s.notes_db ∧
        ((∃ pre post, (strLower n.title).data = pre ++ (strLower q).data ++ post) ∨
         (∃ pre post, (strLower n.content).data = pre ++ (strLower q).data ++ post)) := by
  rw [get_notes_search_filter s hq]
  refine ⟨List.filter_sublist _, ?_⟩
  intro n
  rw [List.mem_filter]
  simp only [Bool.or_eq_true, strContains_iff]

/-- C5 witness: searching for `"Meeting"` in a store holding a note titled
"team meeting notes" and a note about lunch. -/
theorem spec_C5_witness :
    (get_notes
        { notes_db :=
            [{ id := 1, title := "team meeting notes", content := "agenda", tags := [],
               created_at := 0 },
             { id := 2, title := "lunch", content := "sandwich", tags := [], created_at := 0 }],
          next_id := 3 } (some "Meeting") none).Sublist
      [{ id := 1, title := "team meeting notes", content := "agenda", tags := [],
         created_at := 0 },
       { id := 2, title := "lunch", content := "sandwich", tags := [], created_at := 0 }] ∧
    ∀ n, n ∈ get_notes
        { notes_db :=
            [{ id := 1, title := "team meeting notes", content := "agenda", tags := [],
               created_at := 0 },
             { id := 2, title := "lunch", content := "sandwich", tags := [], created_at := 0 }],
          next_id := 3 } (some "Meeting") none ↔
      n ∈ [{ id := 1, title := "team meeting notes", content := "agenda", tags := [],
             created_at := 0 },
           { id := 2, title := "lunch", content := "sandwich", tags := [], created_at := 0 }] ∧
        ((∃ pre post, (strLower n.title).data = pre ++ (strLower "Meeting").data ++ post) ∨
         (∃ pre post, (strLower n.content).data = pre ++ (strLower "Meeting").data ++ post)) :=
  spec_C5
    { notes_db :=
        [{ id := 1, title := "team meeting notes", content := "agenda", tags := [],
           created_at := 0 },
         { id := 2, title := "lunch", content := "sandwich", tags := [], created_at := 0 }],
      next_id := 3 } "Meeting" (by decide)

/-- C6: when both `search` and `tag` are supplied (non-empty), the result
is the store filtered by the conjunction of the two predicates; applying
the tag filter first and the search filter second gives the same list as
the code's search-then-tag order; and with neither parameter the full
store is returned unfiltered. -/
theorem spec_C6 (s : NotesState) (q t : String) (hq : q ≠ "") (ht : t ≠ "") :
    get_notes s (some q) (some t) =
      s.notes_db.filter (fun n =>
        (strContains (strLower n.title) (strLower q) ||
          strContains (strLower n.content) (strLower q)) &&
        (n.tags.map strLower).contains (strLower t)) ∧
    (get_notes s none (some t)).filter
        (fun n => strContains (strLower n.title) (strLower q) ||
          strContains (strLower n.content) (strLower q)) =
      get_notes s (some q) (some t) ∧
    get_notes s none none = s.notes_db := by
  refine ⟨?_, ?_, rfl⟩
  · rw [get_notes_both_filters s hq ht, List.filter_filter]
    exact List.filter_congr (fun x _ => by rw [Bool.and_comm])
  · rw [get_notes_tag_filter s ht, get_notes_both_filters s hq ht,
      List.filter_filter, List.filter_filter]
    exact List.filter_congr (fun x _ => by rw [Bool.and_comm])

/-- C6 witness: both filters on a one-note store with `search="Stand"` and
`tag="Work"`. -/
theorem spec_C6_witness :
    get_notes
        { notes_db :=
            [{ id := 1, title := "standup", content := "c", tags := ["work"], created_at := 0 }],
          next_id := 2 } (some "Stand") (some "Work") =
      List.filter (fun n =>
        (strContains (strLower n.title) (strLower "Stand") ||
          strContains (strLower n.content) (strLower "Stand")) &&
        (n.tags.map strLower).contains (strLower "Work"))
        [{ id := 1, title := "standup", content := "c", tags := ["work"], created_at := 0 }] ∧
    List.filter
        (fun n => strContains (strLower n.title) (strLower "Stand") ||
          strContains (strLower n.content) (strLower "Stand"))
        (get_notes
          { notes_db :=
              [{ id := 1, title := "standup", content := "c", tags := ["work"], created_at := 0 }],
            next_id := 2 } none (some "Work")) =
      get_notes
        { notes_db :=
            [{ id := 1, title := "standup", content := "c", tags := ["work"], created_at := 0 }],
          next_id := 2 } (some "Stand") (some "Work") ∧
    get_notes
        { notes_db :=
            [{ id := 1, title := "standup", content := "c", tags := ["work"], created_at := 0 }],
          next_id := 2 } none none =
      [{ id := 1, title := "standup", content := "c", tags := ["work"], created_at := 0 }] :=
  spec_C6
    { notes_db :=
        [{ id := 1, title := "standup", content := "c", tags := ["work"], created_at := 0 }],
      next_id := 2 } "Stand" "Work" (by decide) (by decide)

/-! ## C2: the empty tags list is applied by update -/

/-- A stored note with non-empty tags. -/
def c2Note : Note :=
  { id := 1, title := "a", content := "b", tags := ["work", "urgent"], created_at := 0 }

/-- A one-note store. -/
def c2State : NotesState := { notes_db := [c2Note], next_id := 2 }

/-- An update payload whose `tags` field is present and equal to the empty
sequence (JSON `{"tags": []}`): it is not null, so `update_note` applies it. -/
def c2Payload : NoteUpdate := { title := none, content := none, tags := some [] }

/-- C2 counterexample: the claim says no update payload can replace an
existing non-empty `tags` value with the empty sequence, but the payload
`{tags: []}` does exactly that — `[]` is not `None`, so the handler's
`if note.tags is not None` guard passes and the stored tags become `[]`. -/
theorem spec_C2_counterexample :
    c2Note.tags ≠ [] ∧
    update_note c2State 1 c2Payload =
      (.ok { id := 1, title := "a", content := "b", tags := [], created_at := 0 },
       { notes_db := [{ id := 1, title := "a", content := "b", tags := [], created_at := 0 }],
         next_id := 2 }) :=
  ⟨by decide, by rfl⟩

/-- C2 (amended): the update merges apply exactly the non-null fields of
the payload — an absent/null field leaves the stored value untouched, and
no field can become null through an update (the items description is null
after an update only when it was null before and the payload supplied
none).  The empty sequence however is not null: a notes payload carrying
`tags = some []` is applied like any other value, so it does replace a
non-empty stored tags value with the empty sequence. -/
theorem spec_C2 (it : Item) (u : ItemUpdate) (old : Note) (v : NoteUpdate) :
    ((applyItemUpdate it u).name = u.name.getD it.name ∧
     (applyItemUpdate it u).description = u.description.or it.description ∧
     (applyItemUpdate it u).price = u.price.getD it.price ∧
     ((applyItemUpdate it u).description = none →
       it.description = none ∧ u.description = none)) ∧
    ((applyNoteUpdate old v).title = v.title.getD old.title ∧
     (applyNoteUpdate old v).content = v.content.getD old.content ∧
     (applyNoteUpdate old v).tags = v.tags.getD old.tags) := by
  refine ⟨⟨applyItemUpdate_name it u, applyItemUpdate_description it u,
    applyItemUpdate_price it u, ?_⟩,
    applyNoteUpdate_title old v, applyNoteUpdate_content old v,
    applyNoteUpdate_tags old v⟩
  intro h
  rw [applyItemUpdate_description] at h
  cases hd : u.description with
  | none => exact ⟨by simpa [hd, Option.or] using h, rfl⟩
  | some d => rw [hd] at h; simp [Option.or] at h

/-- C2 witness: the no-clearing implication applied to an item whose
description is absent and the all-absent payload. -/
theorem spec_C2_witness :
    ({ id := 1, name := "w", description := none, price := 5, created_at := 0 } : Item).description
        = none ∧
    ({ name := none, description := none, price := none } : ItemUpdate).description = none :=
  (spec_C2 { id := 1, name := "w", description := none, price := 5, created_at := 0 }
    { name := none, description := none, price := none }
    { id := 1, title := "t", content := "c", tags := [], created_at := 0 }
    { title := none, content := none, tags := none }).1.2.2.2 (by rfl)

/-! ## C3: update is a frame-preserving in-place overwrite -/

/-- C3: a successful update overwrites, in the found record, exactly the
fields present (non-null) in the payload; the record's `id` and
`created_at` are identical before and after; every other record (the
prefix `l₁` and suffix `l₂` around the updated position) and the counter
are unchanged. -/
theorem spec_C3 {si : ItemsState} {item_id : Nat} {u : ItemUpdate} {r : Item}
    {si' : ItemsState} {sn : NotesState} {note_id : Nat} {v : NoteUpdate} {rn : Note}
    {sn' : NotesState}
    (hi : update_item si item_id u = (.ok r, si'))
    (hn : update_note sn note_id v = (.ok rn, sn')) :
    (si'.next_id = si.next_id ∧
     ∃ l₁ old l₂, si.items_db = l₁ ++ old :: l₂ ∧ si'.items_db = l₁ ++ r :: l₂ ∧
       old.id = item_id ∧ r.id = old.id ∧ r.created_at = old.created_at ∧
       r.name = u.name.getD old.name ∧
       r.description = u.description.or old.description ∧
       r.price = u.price.getD old.price) ∧
    (sn'.next_id = sn.next_id ∧
     ∃ l₁ old l₂, sn.notes_db = l₁ ++ old :: l₂ ∧ sn'.notes_db = l₁ ++ rn :: l₂ ∧
       old.id = note_id ∧ rn.id = old.id ∧ rn.created_at = old.created_at ∧
       rn.title = v.title.getD old.title ∧
       rn.content = v.content.getD old.content ∧
       rn.tags = v.tags.getD old.tags) := by
  obtain ⟨l₁, old, l₂, hsplit, hid, hr, hs', _⟩ := update_item_decomp hi
  obtain ⟨m₁, mid, m₂, hsplit2, hid2, hr2, hs2', _⟩ := update_note_decomp hn
  constructor
  · refine ⟨by rw [hs'], l₁, old, l₂, hsplit, by rw [hs'], hid, ?_, ?_, ?_, ?_, ?_⟩
    · rw [hr, applyItemUpdate_id]
    · rw [hr, applyItemUpdate_created_at]
    · rw [hr, applyItemUpdate_name]
    · rw [hr, applyItemUpdate_description]
    · rw [hr, applyItemUpdate_price]
  · refine ⟨by rw [hs2'], m₁, mid, m₂, hsplit2, by rw [hs2'], hid2, ?_, ?_, ?_, ?_, ?_⟩
    · rw [hr2, applyNoteUpdate_id]
    · rw [hr2, applyNoteUpdate_created_at]
    · rw [hr2, applyNoteUpdate_title]
    · rw [hr2, applyNoteUpdate_content]
    · rw [hr2, applyNoteUpdate_tags]

/-- Store for the C3 witness (items side). -/
def c3Items : ItemsState :=
  { items_db :=
      [{ id := 1, name := "Widget", description := none, price := 5, created_at := 10 },
       { id := 2, name := "Gadget", description := some "g", price := 7, created_at := 11 }],
    next_id := 3 }

/-- Payload for the C3 witness: only `price` supplied. -/
def c3ItemUp : ItemUpdate := { name := none, description := none, price := some 9 }

/-- The record returned by the C3 witness update. -/
def c3ItemRes : Item :=
  { id := 2, name := "Gadget", description := some "g", price := 9, created_at := 11 }

/-- State after the C3 witness update. -/
def c3Items' : ItemsState :=
  { items_db :=
      [{ id := 1, name := "Widget", description := none, price := 5, created_at := 10 },
       c3ItemRes],
    next_id := 3 }

/-- Store for the C3 witness (notes side). -/
def c3Notes : NotesState :=
  { notes_db :=
      [{ id := 1, title := "shopping", content := "milk", tags := ["home"], created_at := 10 },
       { id := 2, title := "standup", content := "notes", tags := ["work", "urgent"],
         created_at := 11 }],
    next_id := 3 }

/-- Payload for the C3 witness: only `title` supplied. -/
def c3NoteUp : NoteUpdate := { title := some "daily standup", content := none, tags := none }

/-- The record returned by the C3 witness update. -/
def c3NoteRes : Note :=
  { id := 2, title := "daily standup", content := "notes", tags := ["work", "urgent"],
    created_at := 11 }

/-- State after the C3 witness update. -/
def c3Notes' : NotesState :=
  { notes_db :=
      [{ id := 1, title := "shopping", content := "milk", tags := ["home"], created_at := 10 },
       c3NoteRes],
    next_id := 3 }

/-- C3 witness: updating only `price` of item 2 and only `title` of note 2. -/
theorem spec_C3_witness :
    (c3Items'.next_id = c3Items.next_id ∧
     ∃ l₁ old l₂, c3Items.items_db = l₁ ++ old :: l₂ ∧
       c3Items'.items_db = l₁ ++ c3ItemRes :: l₂ ∧
       old.id = 2 ∧ c3ItemRes.id = old.id ∧ c3ItemRes.created_at = old.created_at ∧
       c3ItemRes.name = c3ItemUp.name.getD old.name ∧
       c3ItemRes.description = c3ItemUp.description.or old.description ∧
       c3ItemRes.price = c3ItemUp.price.getD old.price) ∧
    (c3Notes'.next_id = c3Notes.next_id ∧
     ∃ l₁ old l₂, c3Notes.notes_db = l₁ ++ old :: l₂ ∧
       c3Notes'.notes_db = l₁ ++ c3NoteRes :: l₂ ∧
       old.id = 2 ∧ c3NoteRes.id = old.id ∧ c3NoteRes.created_at = old.created_at ∧
       c3NoteRes.title = c3NoteUp.title.getD old.title ∧
       c3NoteRes.content = c3NoteUp.content.getD old.content ∧
       c3NoteRes.tags = c3NoteUp.tags.getD old.tags) :=
  spec_C3 (by rfl) (by rfl)

/-! ## C7: the all-absent update payload is a successful no-op -/

/-- C7: when the id exists, an update whose payload has every field
absent/null succeeds, returns the stored record with that id unchanged,
and leaves the whole store state (collection and counter) identical. -/
theorem spec_C7 (si : ItemsState) (item_id : Nat) (sn : NotesState) (note_id : Nat)
    (hi : ∃ x ∈ si.items_db, x.id = item_id)
    (hn : ∃ x ∈ sn.notes_db, x.id = note_id) :
    (∃ r, update_item si item_id { name := none, description := none, price := none } =
        (.ok r, si) ∧ r ∈ si.items_db ∧ r.id = item_id) ∧
    (∃ r, update_note sn note_id { title := none, content := none, tags := none } =
        (.ok r, sn) ∧ r ∈ sn.notes_db ∧ r.id = note_id) := by
  constructor
  · obtain ⟨r, s', heq⟩ :=
      update_item_found { name := none, description := none, price := none } hi
    obtain ⟨l₁, old, l₂, hsplit, hid, hr, hs', _⟩ := update_item_decomp heq
    have hro : r = old := by rw [hr, applyItemUpdate_empty]
    have hstate : s' = si := by
      rw [hs', hro, ← hsplit]
    refine ⟨r, hstate ▸ heq, ?_, ?_⟩
    · rw [hro, hsplit]
      exact List.mem_append.mpr (Or.inr (List.mem_cons_self _ _))
    · rw [hro]; exact hid
  · obtain ⟨r, s', heq⟩ :=
      update_note_found { title := none, content := none, tags := none } hn
    obtain ⟨l₁, old, l₂, hsplit, hid, hr, hs', _⟩ := update_note_decomp heq
    have hro : r = old := by rw [hr, applyNoteUpdate_empty]
    have hstate : s' = sn := by
      rw [hs', hro, ← hsplit]
    refine ⟨r, hstate ▸ heq, ?_, ?_⟩
    · rw [hro, hsplit]
      exact List.mem_append.mpr (Or.inr (List.mem_cons_self _ _))
    · rw [hro]; exact hid

/-- Store for the C7 witness (items side). -/
def c7Items : ItemsState :=
  { items_db := [{ id := 1, name := "Widget", description := none, price := 5, created_at := 0 }],
    next_id := 2 }

/-- Store for the C7 witness (notes side). -/
def c7Notes : NotesState :=
  { notes_db := [{ id := 1, title := "t", content := "c", tags := [], created_at := 0 }],
    next_id := 2 }

/-- C7 witness: empty-payload updates of the only record of each store. -/
theorem spec_C7_witness :
    (∃ r, update_item c7Items 1 { name := none, description := none, price := none } =
        (.ok r, c7Items) ∧ r ∈ c7Items.items_db ∧ r.id = 1) ∧
    (∃ r, update_note c7Notes 1 { title := none, content := none, tags := none } =
        (.ok r, c7Notes) ∧ r ∈ c7Notes.notes_db ∧ r.id = 1) :=
  spec_C7 c7Items 1 c7Notes 1 (by decide) (by decide)

/-! ## C8: the only failure mode is not-found, and it is effect-free -/

/-- C8: when no record has the requested id, `get`, `update` and `delete`
of both services return the 404 outcome with message "Item not found" /
"Note not found" and leave the store state — collection and counter —
exactly as it was.  (Create never fails, so not-found is the only failure
mode of the embedded store operations.) -/
theorem spec_C8 (si : ItemsState) (item_id : Nat) (sn : NotesState) (note_id : Nat)
    (hi : ∀ x ∈ si.items_db, x.id ≠ item_id)
    (hn : ∀ x ∈ sn.notes_db, x.id ≠ note_id) :
    get_item si item_id = (.error "Item not found", si) ∧
    (∀ u, update_item si item_id u = (.error "Item not found", si)) ∧
    delete_item si item_id = (.error "Item not found", si) ∧
    get_note sn note_id = (.error "Note not found", sn) ∧
    (∀ u, update_note sn note_id u = (.error "Note not found", sn)) ∧
    delete_note sn note_id = (.error "Note not found", sn) :=
  ⟨get_item_not_found hi, fun _ => update_item_not_found hi, delete_item_not_found hi,
   get_note_not_found hn, fun _ => update_note_not_found hn, delete_note_not_found hn⟩

/-- Store for the C8 witness (items side): one item, id 1. -/
def c8Items : ItemsState :=
  { items_db := [{ id := 1, name := "Widget", description := none, price := 5, created_at := 0 }],
    next_id := 2 }

/-- Store for the C8 witness (notes side): one note, id 1. -/
def c8Notes : NotesState :=
  { notes_db := [{ id := 1, title := "t", content := "c", tags := [], created_at := 0 }],
    next_id := 2 }

/-- C8 witness: id 9999 exists in neither store. -/
theorem spec_C8_witness :
    get_item c8Items 9999 = (.error "Item not found", c8Items) ∧
    (∀ u, update_item c8Items 9999 u = (.error "Item not found", c8Items)) ∧
    delete_item c8Items 9999 = (.error "Item not found", c8Items) ∧
    get_note c8Notes 9999 = (.error "Note not found", c8Notes) ∧
    (∀ u, update_note c8Notes 9999 u = (.error "Note not found", c8Notes)) ∧
    delete_note c8Notes 9999 = (.error "Note not found", c8Notes) :=
  spec_C8 c8Items 9999 c8Notes 9999 (by decide) (by decide)

/-! ## C9: deletion removes the id for good -/

theorem map_pairwise_ne {α : Type} {f : α → Nat} {l₁ l₂ : List α} {a : α}
    (h : List.Pairwise (· < ·) ((l₁ ++ a :: l₂).map f)) :
    ∀ x ∈ l₁ ++ l₂, f x ≠ f a := by
  rw [List.map_append, List.map_cons, List.pairwise_append] at h
  obtain ⟨h₁, h₂, h₃⟩ := h
  intro x hx
  rcases List.mem_append.mp hx with hx | hx
  · exact Nat.ne_of_lt (h₃ (f x) (List.mem_map_of_mem f hx) (f a) (List.mem_cons_self _ _))
  · exact (Nat.ne_of_lt ((List.pairwise_cons.mp h₂).1 (f x) (List.mem_map_of_mem f hx))).symm

theorem not_mem_range'_of_lt {k s n : Nat} (h : k < s) : k ∉ List.range' s n := by
  intro hmem
  obtain ⟨i, _, hk⟩ := List.mem_range'.mp hmem
  omega

/-- C9: in a state satisfying the reachable-state invariant
(`itemsInv_reachable` / `notesInv_reachable` show it holds in every state
reachable from the initial one), deleting an existing id `k` succeeds,
excises exactly that record leaving the survivors in their previous
relative order (`l₁ ++ l₂`), leaves the counter alone, leaves no record
with id `k`, and no create performed afterwards — under any further
sequence of operations — ever assigns id `k` again. -/
theorem spec_C9 (si : ItemsState) (k : Nat) (sn : NotesState) (k' : Nat)
    (hiInv : ItemsInv si) (hik : ∃ x ∈ si.items_db, x.id = k)
    (hnInv : NotesInv sn) (hnk : ∃ x ∈ sn.notes_db, x.id = k') :
    (∃ msg si' r l₁ l₂,
      delete_item si k = (.ok msg, si') ∧
      si.items_db = l₁ ++ r :: l₂ ∧ r.id = k ∧
      si'.items_db = l₁ ++ l₂ ∧ si'.next_id = si.next_id ∧
      (∀ x ∈ si'.items_db, x.id ≠ k) ∧
      (∀ ops, k ∉ itemCreatedIds si' ops)) ∧
    (∃ msg sn' r l₁ l₂,
      delete_note sn k' = (.ok msg, sn') ∧
      sn.notes_db = l₁ ++ r :: l₂ ∧ r.id = k' ∧
      sn'.notes_db = l₁ ++ l₂ ∧ sn'.next_id = sn.next_id ∧
      (∀ x ∈ sn'.notes_db, x.id ≠ k') ∧
      (∀ ops, k' ∉ noteCreatedIds sn' ops)) := by
  constructor
  · obtain ⟨msg, s', heq⟩ := delete_item_found hik
    obtain ⟨l₁, old, l₂, hsplit, hid, hs', _⟩ := delete_item_decomp heq
    have hdb : s'.items_db = l₁ ++ l₂ := by rw [hs']
    have hnid : s'.next_id = si.next_id := by rw [hs']
    refine ⟨msg, s', old, l₁, l₂, heq, hsplit, hid, hdb, hnid, ?_, ?_⟩
    · intro x hx
      rw [hdb] at hx
      have := map_pairwise_ne (f := Item.id) (hsplit ▸ hiInv.1) x hx
      rw [hid] at this
      exact this
    · intro ops
      rw [itemCreatedIds_eq_range, hnid]
      have hmem : old ∈ si.items_db :=
        hsplit ▸ List.mem_append.mpr (Or.inr (List.mem_cons_self _ _))
      exact not_mem_range'_of_lt (hid ▸ hiInv.2 old hmem)
  · obtain ⟨msg, s', heq⟩ := delete_note_found hnk
    obtain ⟨l₁, old, l₂, hsplit, hid, hs', _⟩ := delete_note_decomp heq
    have hdb : s'.notes_db = l₁ ++ l₂ := by rw [hs']
    have hnid : s'.next_id = sn.next_id := by rw [hs']
    refine ⟨msg, s', old, l₁, l₂, heq, hsplit, hid, hdb, hnid, ?_, ?_⟩
    · intro x hx
      rw [hdb] at hx
      have := map_pairwise_ne (f := Note.id) (hsplit ▸ hnInv.1) x hx
      rw [hid] at this
      exact this
    · intro ops
      rw [noteCreatedIds_eq_range, hnid]
      have hmem : old ∈ sn.notes_db :=
        hsplit ▸ List.mem_append.mpr (Or.inr (List.mem_cons_self _ _))
      exact not_mem_range'_of_lt (hid ▸ hnInv.2 old hmem)

/-- Store for the C9 witness (items side): two items, ids 1 and 2. -/
def c9Items : ItemsState :=
  { items_db :=
      [{ id := 1, name := "Widget", description := none, price := 5, created_at := 10 },
       { id := 2, name := "Gadget", description := some "g", price := 7, created_at := 11 }],
    next_id := 3 }

/-- Store for the C9 witness (notes side): two notes, ids 1 and 2. -/
def c9Notes : NotesState :=
  { notes_db :=
      [{ id := 1, title := "shopping", content := "milk", tags := ["home"], created_at := 10 },
       { id := 2, title := "standup", content := "notes", tags := ["work"], created_at := 11 }],
    next_id := 3 }

/-- C9 witness: deleting id 1 from each two-record store. -/
theorem spec_C9_witness :
    (∃ msg si' r l₁ l₂,
      delete_item c9Items 1 = (.ok msg, si') ∧
      c9Items.items_db = l₁ ++ r :: l₂ ∧ r.id = 1 ∧
      si'.items_db = l₁ ++ l₂ ∧ si'.next_id = c9Items.next_id ∧
      (∀ x ∈ si'.items_db, x.id ≠ 1) ∧
      (∀ ops, 1 ∉ itemCreatedIds si' ops)) ∧
    (∃ msg sn' r l₁ l₂,
      delete_note c9Notes 1 = (.ok msg, sn') ∧
      c9Notes.notes_db = l₁ ++ r :: l₂ ∧ r.id = 1 ∧
      sn'.notes_db = l₁ ++ l₂ ∧ sn'.next_id = c9Notes.next_id ∧
      (∀ x ∈ sn'.notes_db, x.id ≠ 1) ∧
      (∀ ops, 1 ∉ noteCreatedIds sn' ops)) :=
  spec_C9 c9Items 1 c9Notes 1 ⟨by decide, by decide⟩ (by decide)
    ⟨by decide, by decide⟩ (by decide)
